import Mathlib

/-!
Shallow embedding of the todo-frontend task client (src/src/App.jsx):
the authenticated HTTP wrapper `apiCall`, the date converters
`formatDateForInput` / `parseDateForAPI`, the list normalization in
`loadTasks`, and the controller state transitions of the App component.

JavaScript runtime primitives (JSON.parse / JSON.stringify, the Date
built-in, fetch) are modelled explicitly: JSON codecs are abstract
parameters (the wrapper never inspects their output), while the Date
built-in is modelled by an executable proleptic-Gregorian calendar over
milliseconds since the Unix epoch, with the host timezone offset (in
minutes, UTC minus local, as returned by getTimezoneOffset) passed as an
explicit parameter `off`.
-/

namespace Todo

/-! ### JavaScript truthiness helpers -/

/-- JS `x || dflt` for a string-valued `x` that may be null/undefined
(`none`) or empty (falsy). -/
def jsOrStr (x : Option String) (dflt : String) : String :=
  match x with
  | none => dflt
  | some s => if s = "" then dflt else s

/-- JS `s || dflt` for a plain string `s` (only `""` is falsy). -/
def strOr (s dflt : String) : String :=
  if s = "" then dflt else s

/-- JS truthiness of a string-or-null value. -/
def jsTruthyStr (x : Option String) : Bool :=
  match x with
  | none => false
  | some s => !(s == "")

/-- JS `x || null` for a string-or-null value. -/
def jsOrNull (x : Option String) : Option String :=
  match x with
  | none => none
  | some s => if s = "" then none else some s

/-! ### The authenticated HTTP wrapper (`getIdToken`, `apiCall`) -/

/-- The fixed API base URL from App.jsx. -/
def apiUrl : String :=
  "https://7x7l9qzd45.execute-api.eu-central-1.amazonaws.com/prod"

/-- Message of the error thrown by `getIdToken` when the session holds no
id token. -/
def noIdTokenMsg : String :=
  "No id token available. Make sure the user is signed in."

/-- Errors surfaced by the client. `http` is the structured error built by
`apiCall` for a non-2xx response (JS: `Error("API error")` with `status`
and `body` fields); `auth` is the plain error thrown by `getIdToken`;
`parseFail` models the SyntaxError thrown by `JSON.parse` on a non-empty
2xx body that is not valid JSON (its message is platform dependent). -/
inductive ApiError where
  | http (status : Nat) (body : String)
  | auth (message : String)
  | parseFail (message : String)
  deriving DecidableEq, Repr

/-- The `.body` field of the thrown error (undefined except for `http`). -/
def ApiError.bodyOpt : ApiError → Option String
  | .http _ b => some b
  | .auth _ => none
  | .parseFail _ => none

/-- The `.message` field of the thrown error. -/
def ApiError.msgText : ApiError → String
  | .http _ _ => "API error"
  | .auth m => m
  | .parseFail m => m

/-- The display string every controller action stores on failure:
JS `err.body ?? err.message`. -/
def ApiError.display (e : ApiError) : String :=
  (e.bodyOpt).getD e.msgText

/-- `getIdToken`: fetch the auth session and fail when it yields no id
token (App.jsx lines 13-22). The session is modelled as the optional
token string it provides. -/
def getIdToken (session : Option String) : Except ApiError String :=
  match session with
  | none => .error (.auth noIdTokenMsg)
  | some t => .ok t

/-- An HTTP response as seen by `apiCall`: status, status text and the
raw body text. -/
structure HttpResponse where
  status : Nat
  statusText : String
  bodyText : String
  deriving DecidableEq, Repr

/-- `res.ok` of the Fetch API: status in the range 200-299. -/
def resOk (r : HttpResponse) : Bool :=
  200 ≤ r.status && r.status < 300

/-- The outgoing request `apiCall` hands to `fetch` (App.jsx lines 26-33);
the body is already JSON-stringified. -/
structure Request where
  url : String
  method : String
  authorization : String
  contentType : String
  body : Option String
  deriving DecidableEq, Repr

/-- Request-building stage of `apiCall`: everything that happens strictly
before the network call. It fails exactly when `getIdToken` fails, in
which case no request value exists (no network request is issued).
`stringify` models `JSON.stringify` on the body value. -/
def apiCallRequest {J : Type} (stringify : J → String) (session : Option String)
    (path method : String) (body : Option J) : Except ApiError Request :=
  match getIdToken session with
  | .error e => .error e
  | .ok tok =>
    .ok { url := apiUrl ++ path, method := method, authorization := tok,
          contentType := "application/json", body := body.map stringify }

/-- Response-handling stage of `apiCall` (App.jsx lines 34-46). `parse`
models `JSON.parse` (`none` = would throw); `stringify` models
`JSON.stringify`. On a non-2xx status the structured error carries the
status and, as body, the stringified parsed JSON body when the body
parses, else the literal `<status> <statusText>` string (`res.json()` on
an empty or invalid body throws, which the code swallows). On a 2xx
status an empty body yields `none` (JS null), otherwise the body is
parsed; `JSON.parse` throwing on a non-empty invalid body is the
`parseFail` outcome. -/
def handleResponse {J : Type} (parse : String → Option J) (stringify : J → String)
    (r : HttpResponse) : Except ApiError (Option J) :=
  if resOk r then
    if r.bodyText = "" then .ok none
    else
      match parse r.bodyText with
      | some j => .ok (some j)
      | none => .error (.parseFail "Unexpected token in JSON")
  else
    .error (.http r.status
      (match parse r.bodyText with
       | some j => stringify j
       | none => toString r.status ++ " " ++ r.statusText))

/-- `apiCall` end to end: token acquisition, then (only if that succeeded)
the response `r` produced by `fetch` is processed. -/
def apiCall {J : Type} (parse : String → Option J) (stringify : J → String)
    (session : Option String) (path method : String) (body : Option J)
    (r : HttpResponse) : Except ApiError (Option J) :=
  match apiCallRequest stringify session path method body with
  | .error e => .error e
  | .ok _ => handleResponse parse stringify r

/-! ### Task data model -/

/-- A task record as held in the controller's `tasks` collection. Optional
fields model JSON fields that may be null/undefined (`none`) or present;
an empty string is present but falsy. -/
structure Task where
  taskId : Nat
  title : String
  description : Option String
  status : Option String
  deadline : Option String
  deriving DecidableEq, Repr

/-- The form draft (`emptyTask()` shape, App.jsx lines 49-57). -/
structure TaskForm where
  taskId : Option Nat
  title : String
  description : String
  status : String
  deadline : String
  deriving DecidableEq, Repr

/-- `emptyTask()`. -/
def emptyTask : TaskForm :=
  { taskId := none, title := "", description := "", status := "Pending", deadline := "" }

/-- The argument shape accepted by `updateTask` (either the form draft or
a spread task record). -/
structure Patch where
  title : String
  description : Option String
  deadline : Option String
  status : Option String
  deriving DecidableEq, Repr

/-- Body of the POST issued by `createTask` (App.jsx lines 112-116). -/
structure CreatePayload where
  title : String
  description : String
  deadline : Option String
  deriving DecidableEq, Repr

/-- Body of the PUT issued by `updateTask` (App.jsx lines 128-134). -/
structure UpdateBody where
  taskId : Nat
  title : String
  description : String
  deadline : Option String
  status : String
  deriving DecidableEq, Repr

/-! ### Filter projection (App.jsx lines 154-157) -/

/-- Effective status used by the filter: `t.status || "Pending"`. -/
def effStatus (t : Task) : String :=
  jsOrStr t.status "Pending"

/-- `visibleTasks`: the full collection when the filter is `All`, else the
tasks whose effective status equals the filter. A pure function of the
in-memory collection. -/
def visibleTasks (filter : String) (tasks : List Task) : List Task :=
  if filter = "All" then tasks
  else tasks.filter (fun t => effStatus t == filter)

/-! ### Per-operation request stages -/

/-- Stringify stand-in for a GET/DELETE call, whose body is `null`. -/
def noBodyStringify : Empty → String :=
  fun j => j.elim

/-- Request stage of `listTasks` (`apiCall("/tasks", "GET")`). -/
def listTasksReq (session : Option String) : Except ApiError Request :=
  apiCallRequest noBodyStringify session "/tasks" "GET" none

/-- Request stage of `createTask` (`apiCall("/tasks", "POST", payload)`). -/
def createTaskReq (sc : CreatePayload → String) (session : Option String)
    (payload : CreatePayload) : Except ApiError Request :=
  apiCallRequest sc session "/tasks" "POST" (some payload)

/-- Request stage of `updateTask`
(`apiCall("/tasks/" + taskId, "PUT", body)`). -/
def updateTaskReq (su : UpdateBody → String) (session : Option String)
    (taskId : Nat) (body : UpdateBody) : Except ApiError Request :=
  apiCallRequest su session ("/tasks/" ++ toString taskId) "PUT" (some body)

/-- Request stage of `removeTask` (`apiCall("/tasks/" + taskId, "DELETE")`). -/
def deleteTaskReq (session : Option String) (taskId : Nat) : Except ApiError Request :=
  apiCallRequest noBodyStringify session ("/tasks/" ++ toString taskId) "DELETE" none


/-! ### Proleptic Gregorian calendar (model of the JS `Date` built-in)

Day numbers count days since 0000-01-01 (proleptic Gregorian, year 0 is a
leap year), which keeps everything in `Nat` for the printable year range
0-9999 that `toISOString` renders with a four-digit year. -/

/-- Gregorian leap-year rule. -/
def isLeap (y : Nat) : Bool :=
  decide ((y % 4 = 0 ∧ y % 100 ≠ 0) ∨ y % 400 = 0)

/-- Days in year `y`. -/
def daysInYear (y : Nat) : Nat :=
  if isLeap y then 366 else 365

/-- Days in month `m` (1-12) of year `y`. -/
def daysInMonth (y m : Nat) : Nat :=
  if m = 2 then (if isLeap y then 29 else 28)
  else if m = 4 ∨ m = 6 ∨ m = 9 ∨ m = 11 then 30 else 31

/-- Days of year `y` strictly before month `m` (months count from 1). -/
def daysBeforeMonth (y : Nat) : Nat → Nat
  | 0 => 0
  | 1 => 0
  | m + 1 => daysBeforeMonth y m + daysInMonth y m

/-- Days strictly before year `y`, counted from 0000-01-01. -/
def daysBeforeYear (y : Nat) : Nat :=
  365 * y + (y + 3) / 4 - (y + 99) / 100 + (y + 399) / 400

set_option maxHeartbeats 1000000 in
theorem daysBeforeYear_succ (y : Nat) :
    daysBeforeYear (y + 1) = daysBeforeYear y + daysInYear y := by
  simp only [daysBeforeYear, daysInYear, isLeap, decide_eq_true_eq]
  split <;> omega

theorem daysBeforeYear_mono {a b : Nat} (h : a ≤ b) :
    daysBeforeYear a ≤ daysBeforeYear b := by
  induction b with
  | zero => simp only [Nat.le_zero] at h; subst h; exact le_refl _
  | succ k ih =>
    rcases Nat.lt_or_ge a (k + 1) with hlt | hge
    · have := daysBeforeYear_succ k
      have := ih (by omega)
      omega
    · have : a = k + 1 := by omega
      subst this; exact le_refl _

theorem daysInYear_pos (y : Nat) : 365 ≤ daysInYear y := by
  simp only [daysInYear]
  split <;> omega

theorem daysInMonth_pos (y m : Nat) : 28 ≤ daysInMonth y m := by
  simp only [daysInMonth]
  split <;> [split; split] <;> omega

theorem daysBeforeMonth_step (y m : Nat) (h : 1 ≤ m) :
    daysBeforeMonth y (m + 1) = daysBeforeMonth y m + daysInMonth y m := by
  cases m with
  | zero => omega
  | succ k => rfl

theorem daysBeforeMonth_mono (y : Nat) {a b : Nat} (h1 : 1 ≤ a) (h : a ≤ b) :
    daysBeforeMonth y a ≤ daysBeforeMonth y b := by
  induction b with
  | zero => omega
  | succ k ih =>
    rcases Nat.lt_or_ge a (k + 1) with hlt | hge
    · have hk : 1 ≤ k := by omega
      have hstep := daysBeforeMonth_step y k hk
      have := ih (by omega)
      omega
    · have : a = k + 1 := by omega
      subst this; exact le_refl _

theorem daysBeforeMonth_thirteen (y : Nat) :
    daysBeforeMonth y 13 = daysInYear y := by
  cases hb : isLeap y <;>
    norm_num [daysBeforeMonth, daysInMonth, daysInYear, hb]

/-- Year-search loop: starting at year `y` with `n` days remaining, walk
forward one year at a time; returns the landing year and day-of-year. -/
def yearLoop (y n : Nat) : Nat × Nat :=
  if h : daysInYear y ≤ n then yearLoop (y + 1) (n - daysInYear y) else (y, n)
termination_by n
decreasing_by
  have := daysInYear_pos y
  omega

/-- Month-search loop within year `y`, starting at month `m`. -/
def monthLoop (y m doy : Nat) : Nat × Nat :=
  if h : daysInMonth y m ≤ doy then monthLoop y (m + 1) (doy - daysInMonth y m)
  else (m, doy)
termination_by doy
decreasing_by
  have := daysInMonth_pos y m
  omega

theorem yearLoop_spec (y n : Nat) :
    daysBeforeYear y + n = daysBeforeYear (yearLoop y n).1 + (yearLoop y n).2 ∧
    (yearLoop y n).2 < daysInYear (yearLoop y n).1 ∧ y ≤ (yearLoop y n).1 := by
  induction y, n using yearLoop.induct with
  | case1 y n h ih =>
    rw [yearLoop, dif_pos h]
    obtain ⟨i1, i2, i3⟩ := ih
    have hstep := daysBeforeYear_succ y
    exact ⟨by omega, i2, by omega⟩
  | case2 y n h =>
    rw [yearLoop, dif_neg h]
    exact ⟨rfl, show n < daysInYear y by omega, le_refl y⟩

theorem monthLoop_spec (y m doy : Nat) :
    1 ≤ m →
      daysBeforeMonth y m + doy =
        daysBeforeMonth y (monthLoop y m doy).1 + (monthLoop y m doy).2 ∧
      (monthLoop y m doy).2 < daysInMonth y (monthLoop y m doy).1 ∧
      m ≤ (monthLoop y m doy).1 := by
  refine monthLoop.induct y
    (fun m doy => 1 ≤ m →
      daysBeforeMonth y m + doy =
        daysBeforeMonth y (monthLoop y m doy).1 + (monthLoop y m doy).2 ∧
      (monthLoop y m doy).2 < daysInMonth y (monthLoop y m doy).1 ∧
      m ≤ (monthLoop y m doy).1) ?_ ?_ m doy
  · intro m doy h ih hm
    rw [monthLoop, dif_pos h]
    obtain ⟨i1, i2, i3⟩ := ih (by omega)
    have hstep := daysBeforeMonth_step y m hm
    exact ⟨by omega, i2, by omega⟩
  · intro m doy h hm
    rw [monthLoop, dif_neg h]
    exact ⟨rfl, show doy < daysInMonth y m by omega, le_refl m⟩

theorem year_uniq {b c r s : Nat}
    (heq : daysBeforeYear b + r = daysBeforeYear c + s)
    (hr : r < daysInYear b) (hs : s < daysInYear c) : b = c ∧ r = s := by
  rcases Nat.lt_trichotomy b c with hlt | heq' | hgt
  · exfalso
    have h1 := daysBeforeYear_succ b
    have h2 := daysBeforeYear_mono (show b + 1 ≤ c by omega)
    omega
  · subst heq'; omega
  · exfalso
    have h1 := daysBeforeYear_succ c
    have h2 := daysBeforeYear_mono (show c + 1 ≤ b by omega)
    omega

theorem month_uniq (y : Nat) {b c r s : Nat} (hb : 1 ≤ b) (hc : 1 ≤ c)
    (heq : daysBeforeMonth y b + r = daysBeforeMonth y c + s)
    (hr : r < daysInMonth y b) (hs : s < daysInMonth y c) : b = c ∧ r = s := by
  rcases Nat.lt_trichotomy b c with hlt | heq' | hgt
  · exfalso
    have h1 := daysBeforeMonth_step y b hb
    have h2 := daysBeforeMonth_mono y (show 1 ≤ b + 1 by omega) (show b + 1 ≤ c by omega)
    omega
  · subst heq'; omega
  · exfalso
    have h1 := daysBeforeMonth_step y c hc
    have h2 := daysBeforeMonth_mono y (show 1 ≤ c + 1 by omega) (show c + 1 ≤ b by omega)
    omega

/-- Valid calendar date. -/
def validYMD (y m d : Nat) : Prop :=
  1 ≤ m ∧ m ≤ 12 ∧ 1 ≤ d ∧ d ≤ daysInMonth y m

instance (y m d : Nat) : Decidable (validYMD y m d) := by
  unfold validYMD; infer_instance

/-- Day number (days since 0000-01-01) of a calendar date. -/
def dayNumber (y m d : Nat) : Nat :=
  daysBeforeYear y + daysBeforeMonth y m + (d - 1)

/-- Calendar date of a day number. -/
def civilOfDayNumber (n : Nat) : Nat × Nat × Nat :=
  ((yearLoop 0 n).1,
   (monthLoop (yearLoop 0 n).1 1 (yearLoop 0 n).2).1,
   (monthLoop (yearLoop 0 n).1 1 (yearLoop 0 n).2).2 + 1)

theorem daysBeforeMonth_day_lt (y m d : Nat) (h : validYMD y m d) :
    daysBeforeMonth y m + (d - 1) < daysInYear y := by
  obtain ⟨hm1, hm2, hd1, hd2⟩ := h
  have h1 := daysBeforeMonth_step y m hm1
  have h2 : daysBeforeMonth y (m + 1) ≤ daysBeforeMonth y 13 :=
    daysBeforeMonth_mono y (by omega) (by omega)
  have h3 := daysBeforeMonth_thirteen y
  omega

/-- Round trip B: converting a valid date to its day number and back is
the identity. -/
theorem civilOfDayNumber_dayNumber (y m d : Nat) (h : validYMD y m d) :
    civilOfDayNumber (dayNumber y m d) = (y, m, d) := by
  obtain ⟨hm1, hm2, hd1, hd2⟩ := h
  have hy := yearLoop_spec 0 (dayNumber y m d)
  have hzero : daysBeforeYear 0 = 0 := by decide
  have hdn : dayNumber y m d = daysBeforeYear y + daysBeforeMonth y m + (d - 1) := rfl
  have hlt := daysBeforeMonth_day_lt y m d ⟨hm1, hm2, hd1, hd2⟩
  have hyr := year_uniq
    (b := (yearLoop 0 (dayNumber y m d)).1) (c := y)
    (r := (yearLoop 0 (dayNumber y m d)).2) (s := daysBeforeMonth y m + (d - 1))
    (by omega) hy.2.1 hlt
  have hmo := monthLoop_spec y 1 (daysBeforeMonth y m + (d - 1)) (by omega)
  have hone : daysBeforeMonth y 1 = 0 := rfl
  have hmr := month_uniq y
    (b := (monthLoop y 1 (daysBeforeMonth y m + (d - 1))).1) (c := m)
    (r := (monthLoop y 1 (daysBeforeMonth y m + (d - 1))).2) (s := d - 1)
    (by omega) hm1 (by omega) hmo.2.1 (by omega)
  simp only [civilOfDayNumber]
  rw [hyr.1, hyr.2, hmr.1, hmr.2]
  simp only [Prod.mk.injEq]
  exact ⟨trivial, trivial, by omega⟩

/-- Round trip A: the calendar date of any day number is valid and maps
back to the same day number. -/
theorem dayNumber_civilOfDayNumber (n : Nat) :
    validYMD (civilOfDayNumber n).1 (civilOfDayNumber n).2.1 (civilOfDayNumber n).2.2 ∧
    dayNumber (civilOfDayNumber n).1 (civilOfDayNumber n).2.1 (civilOfDayNumber n).2.2 = n := by
  have hy := yearLoop_spec 0 n
  have hzero : daysBeforeYear 0 = 0 := by decide
  have hmo := monthLoop_spec (yearLoop 0 n).1 1 (yearLoop 0 n).2 (by omega)
  have hone : daysBeforeMonth (yearLoop 0 n).1 1 = 0 := rfl
  have h13 := daysBeforeMonth_thirteen (yearLoop 0 n).1
  have hm12 : (monthLoop (yearLoop 0 n).1 1 (yearLoop 0 n).2).1 ≤ 12 := by
    by_contra hgt
    have h2 := daysBeforeMonth_mono (yearLoop 0 n).1 (show 1 ≤ 13 by omega)
      (show 13 ≤ (monthLoop (yearLoop 0 n).1 1 (yearLoop 0 n).2).1 by omega)
    omega
  refine ⟨⟨?_, ?_, ?_, ?_⟩, ?_⟩
  · simp only [civilOfDayNumber]
    omega
  · simpa only [civilOfDayNumber] using hm12
  · simp only [civilOfDayNumber]
    omega
  · simp only [civilOfDayNumber]
    omega
  · simp only [civilOfDayNumber, dayNumber]
    omega

/-! ### Broken-down datetimes and epoch milliseconds -/

/-- A broken-down UTC datetime. -/
structure DateTime where
  year : Nat
  month : Nat
  day : Nat
  hour : Nat
  minute : Nat
  second : Nat
  ms : Nat
  deriving DecidableEq, Repr

/-- Milliseconds from 0000-01-01T00:00:00.000Z to the Unix epoch
(`dayNumber 1970 1 1 * 86400000`). -/
def epochShiftMs : Nat := 62167219200000

/-- Field validity of a broken-down datetime (the year is unconstrained;
four-digit printability is a separate hypothesis where needed). -/
def validDT (dt : DateTime) : Prop :=
  validYMD dt.year dt.month dt.day ∧ dt.hour ≤ 23 ∧ dt.minute ≤ 59 ∧
    dt.second ≤ 59 ∧ dt.ms ≤ 999

instance (dt : DateTime) : Decidable (validDT dt) := by
  unfold validDT; infer_instance

/-- Epoch milliseconds of a broken-down UTC datetime. -/
def epochMs (dt : DateTime) : Int :=
  (dayNumber dt.year dt.month dt.day : Int) * 86400000
    + dt.hour * 3600000 + dt.minute * 60000 + dt.second * 1000 + dt.ms
    - epochShiftMs

/-- Broken-down UTC datetime of an epoch millisecond value (clamped below
year 0; faithful to the JS `Date` built-in inside the range it prints
with a four-digit year). -/
def fromEpochMs (e : Int) : DateTime :=
  { year := (civilOfDayNumber ((e + epochShiftMs).toNat / 86400000)).1,
    month := (civilOfDayNumber ((e + epochShiftMs).toNat / 86400000)).2.1,
    day := (civilOfDayNumber ((e + epochShiftMs).toNat / 86400000)).2.2,
    hour := (e + epochShiftMs).toNat % 86400000 / 3600000,
    minute := (e + epochShiftMs).toNat % 86400000 % 3600000 / 60000,
    second := (e + epochShiftMs).toNat % 86400000 % 60000 / 1000,
    ms := (e + epochShiftMs).toNat % 86400000 % 1000 }

theorem fromEpochMs_validDT (e : Int) : validDT (fromEpochMs e) := by
  have hA := dayNumber_civilOfDayNumber ((e + epochShiftMs).toNat / 86400000)
  refine ⟨hA.1, ?_, ?_, ?_, ?_⟩ <;> simp only [fromEpochMs] <;> omega

theorem epochMs_fromEpochMs (e : Int) (h : -(62167219200000 : Int) ≤ e) :
    epochMs (fromEpochMs e) = e := by
  have hA := dayNumber_civilOfDayNumber ((e + epochShiftMs).toNat / 86400000)
  simp only [fromEpochMs, epochMs, epochShiftMs] at *
  rw [hA.2]
  omega

theorem fromEpochMs_epochMs (dt : DateTime) (h : validDT dt) :
    fromEpochMs (epochMs dt) = dt := by
  obtain ⟨y, mo, da, hr, mi, se, ml⟩ := dt
  obtain ⟨hymd, hh, hmi, hs, hms⟩ := h
  dsimp only at hh hmi hs hms
  have hB := civilOfDayNumber_dayNumber y mo da hymd
  have hpos := daysInMonth_pos y mo
  simp only [validYMD] at hymd
  simp only [epochMs, fromEpochMs, epochShiftMs, Nat.cast_ofNat]
  have ht : ((dayNumber y mo da : Int) * 86400000
      + hr * 3600000 + mi * 60000 + se * 1000 + ml
      - 62167219200000 + 62167219200000).toNat
      = dayNumber y mo da * 86400000
        + (hr * 3600000 + mi * 60000 + se * 1000 + ml) := by
    omega
  rw [ht]
  have hdiv : (dayNumber y mo da * 86400000
      + (hr * 3600000 + mi * 60000 + se * 1000 + ml)) / 86400000
      = dayNumber y mo da := by omega
  have hmod : (dayNumber y mo da * 86400000
      + (hr * 3600000 + mi * 60000 + se * 1000 + ml)) % 86400000
      = hr * 3600000 + mi * 60000 + se * 1000 + ml := by omega
  rw [hdiv, hmod, hB]
  simp only [DateTime.mk.injEq]
  refine ⟨trivial, trivial, trivial, ?_, ?_, ?_, ?_⟩ <;> omega

/-- Epoch values whose UTC datetime `toISOString` prints with a
four-digit year: 0000-01-01T00:00:00.000Z through
9999-12-31T23:59:59.999Z. -/
def inPrintableRange (e : Int) : Prop :=
  -62167219200000 ≤ e ∧ e ≤ 253402300799999

instance (e : Int) : Decidable (inPrintableRange e) := by
  unfold inPrintableRange; infer_instance

theorem fromEpochMs_year_le (e : Int) (h : e ≤ 253402300799999) :
    (fromEpochMs e).year ≤ 9999 := by
  have hy := yearLoop_spec 0 ((e + 62167219200000).toNat / 86400000)
  have hzero : daysBeforeYear 0 = 0 := by decide
  have hten : daysBeforeYear 10000 = 3652425 := by decide
  simp only [fromEpochMs, civilOfDayNumber, epochShiftMs, Nat.cast_ofNat]
  by_contra hgt
  have hmono := daysBeforeYear_mono
    (show 10000 ≤ (yearLoop 0 ((e + 62167219200000).toNat / 86400000)).1 by omega)
  omega

/-! ### Decimal digit rendering and parsing -/

/-- Decimal digit character (`'?'` out of range, which no parser accepts). -/
def digitChar (n : Nat) : Char :=
  match n with
  | 0 => '0' | 1 => '1' | 2 => '2' | 3 => '3' | 4 => '4'
  | 5 => '5' | 6 => '6' | 7 => '7' | 8 => '8' | 9 => '9'
  | _ => '?'

/-- Numeric value of a digit character. -/
def digitVal (c : Char) : Nat := c.toNat - 48

/-- Two-digit zero-padded decimal rendering. -/
def render2 (n : Nat) : List Char := [digitChar (n / 10), digitChar (n % 10)]

/-- Three-digit zero-padded decimal rendering. -/
def render3 (n : Nat) : List Char :=
  [digitChar (n / 100), digitChar (n / 10 % 10), digitChar (n % 10)]

/-- Four-digit zero-padded decimal rendering. -/
def render4 (n : Nat) : List Char :=
  [digitChar (n / 1000), digitChar (n / 100 % 10), digitChar (n / 10 % 10), digitChar (n % 10)]

theorem digitChar_isDigit {n : Nat} (h : n ≤ 9) : (digitChar n).isDigit = true := by
  interval_cases n <;> decide

theorem digitVal_digitChar {n : Nat} (h : n ≤ 9) : digitVal (digitChar n) = n := by
  interval_cases n <;> decide

/-- Parse exactly two decimal digits. -/
def parse2 : List Char → Option (Nat × List Char)
  | c1 :: c2 :: rest =>
    if c1.isDigit && c2.isDigit then some (10 * digitVal c1 + digitVal c2, rest)
    else none
  | _ => none

/-- Parse exactly three decimal digits. -/
def parse3 : List Char → Option (Nat × List Char)
  | c1 :: c2 :: c3 :: rest =>
    if c1.isDigit && c2.isDigit && c3.isDigit then
      some (100 * digitVal c1 + 10 * digitVal c2 + digitVal c3, rest)
    else none
  | _ => none

/-- Parse exactly four decimal digits. -/
def parse4 : List Char → Option (Nat × List Char)
  | c1 :: c2 :: c3 :: c4 :: rest =>
    if c1.isDigit && c2.isDigit && c3.isDigit && c4.isDigit then
      some (1000 * digitVal c1 + 100 * digitVal c2 + 10 * digitVal c3 + digitVal c4, rest)
    else none
  | _ => none

/-- Expect a literal character. -/
def expectCh (ch : Char) : List Char → Option (List Char)
  | c :: rest => if c = ch then some rest else none
  | _ => none

theorem parse2_render2 (n : Nat) (h : n ≤ 99) (rest : List Char) :
    parse2 (render2 n ++ rest) = some (n, rest) := by
  have h1 : n / 10 ≤ 9 := by omega
  have h2 : n % 10 ≤ 9 := by omega
  have e : render2 n ++ rest = digitChar (n / 10) :: digitChar (n % 10) :: rest := rfl
  rw [e]
  simp [parse2, digitChar_isDigit h1, digitChar_isDigit h2,
    digitVal_digitChar h1, digitVal_digitChar h2]
  omega

theorem parse3_render3 (n : Nat) (h : n ≤ 999) (rest : List Char) :
    parse3 (render3 n ++ rest) = some (n, rest) := by
  have h1 : n / 100 ≤ 9 := by omega
  have h2 : n / 10 % 10 ≤ 9 := by omega
  have h3 : n % 10 ≤ 9 := by omega
  have e : render3 n ++ rest
      = digitChar (n / 100) :: digitChar (n / 10 % 10) :: digitChar (n % 10) :: rest := rfl
  rw [e]
  simp [parse3, digitChar_isDigit h1, digitChar_isDigit h2, digitChar_isDigit h3,
    digitVal_digitChar h1, digitVal_digitChar h2, digitVal_digitChar h3]
  omega

theorem parse4_render4 (n : Nat) (h : n ≤ 9999) (rest : List Char) :
    parse4 (render4 n ++ rest) = some (n, rest) := by
  have h1 : n / 1000 ≤ 9 := by omega
  have h2 : n / 100 % 10 ≤ 9 := by omega
  have h3 : n / 10 % 10 ≤ 9 := by omega
  have h4 : n % 10 ≤ 9 := by omega
  have e : render4 n ++ rest
      = digitChar (n / 1000) :: digitChar (n / 100 % 10) :: digitChar (n / 10 % 10)
          :: digitChar (n % 10) :: rest := rfl
  rw [e]
  simp [parse4, digitChar_isDigit h1, digitChar_isDigit h2, digitChar_isDigit h3,
    digitChar_isDigit h4, digitVal_digitChar h1, digitVal_digitChar h2,
    digitVal_digitChar h3, digitVal_digitChar h4]
  omega

theorem expectCh_cons (ch : Char) (rest : List Char) :
    expectCh ch (ch :: rest) = some rest := by
  simp [expectCh]

/-! ### ISO-8601 rendering and parsing -/

/-- The first sixteen characters of `toISOString` output:
`YYYY-MM-DDTHH:mm` (what `slice(0, 16)` keeps for a datetime-local
input). -/
def editChars (dt : DateTime) : List Char :=
  render4 dt.year ++ '-' :: render2 dt.month ++ '-' :: render2 dt.day
    ++ 'T' :: render2 dt.hour ++ ':' :: render2 dt.minute

/-- The remainder of `toISOString` output: `:ss.mmmZ`. -/
def isoTailChars (dt : DateTime) : List Char :=
  ':' :: render2 dt.second ++ '.' :: render3 dt.ms ++ ['Z']

/-- Character list of the full `toISOString` output
`YYYY-MM-DDTHH:mm:ss.mmmZ`. -/
def isoChars (dt : DateTime) : List Char :=
  editChars dt ++ isoTailChars dt

/-- `toISOString` output for a broken-down UTC datetime (faithful for
years 0-9999). -/
def renderISO (dt : DateTime) : String :=
  String.mk (isoChars dt)

/-- Editable-format rendering `YYYY-MM-DDTHH:mm`. -/
def renderEditable (dt : DateTime) : String :=
  String.mk (editChars dt)

/-- Parse the optional `.mmm` milliseconds and final `Z` after seconds. -/
def parseMsTail : List Char → Option (Nat × Bool)
  | [] => some (0, false)
  | ['Z'] => some (0, true)
  | '.' :: rest =>
    match parse3 rest with
    | none => none
    | some (ml, rest2) =>
      match rest2 with
      | [] => some (ml, false)
      | ['Z'] => some (ml, true)
      | _ => none
  | _ => none

/-- Parse the optional `:ss[.mmm]` and final `Z` after minutes; yields
`(seconds, milliseconds, utc)`. -/
def parseTimeTail : List Char → Option (Nat × Nat × Bool)
  | [] => some (0, 0, false)
  | ['Z'] => some (0, 0, true)
  | ':' :: rest =>
    match parse2 rest with
    | none => none
    | some (se, rest2) =>
      if se ≤ 59 then
        match parseMsTail rest2 with
        | none => none
        | some (ml, z) => some (se, ml, z)
      else none
  | _ => none

/-- Parser for the ISO-8601 subset accepted by the JS `Date` constructor
that this client can encounter: `YYYY-MM-DD`, `YYYY-MM-DDTHH:mm`,
`YYYY-MM-DDTHH:mm:ss` and `YYYY-MM-DDTHH:mm:ss.mmm`, each optionally
suffixed `Z`. Returns the broken-down datetime and whether it must be
read as UTC (explicit `Z`, or a date-only form); out-of-range components
are rejected (Invalid Date). -/
def parseISOChars (cs : List Char) : Option (DateTime × Bool) :=
  (parse4 cs).bind fun py =>
  (expectCh '-' py.2).bind fun r1 =>
  (parse2 r1).bind fun pm =>
  (expectCh '-' pm.2).bind fun r2 =>
  (parse2 r2).bind fun pd =>
  if 1 ≤ pm.1 ∧ pm.1 ≤ 12 ∧ 1 ≤ pd.1 ∧ pd.1 ≤ daysInMonth py.1 pm.1 then
    match pd.2 with
    | [] => some (⟨py.1, pm.1, pd.1, 0, 0, 0, 0⟩, true)
    | 'T' :: r3 =>
      (parse2 r3).bind fun ph =>
      (expectCh ':' ph.2).bind fun r4 =>
      (parse2 r4).bind fun pmin =>
      if ph.1 ≤ 23 ∧ pmin.1 ≤ 59 then
        (parseTimeTail pmin.2).map fun t =>
          (⟨py.1, pm.1, pd.1, ph.1, pmin.1, t.1, t.2.1⟩, t.2.2)
      else none
    | _ => none
  else none

/-! ### The JS date primitives used by App.jsx -/

/-- Model of `new Date(s).getTime()` (`none` = Invalid Date / NaN). A
string without timezone designator is interpreted in local time using
the host offset `off` (minutes, UTC minus local); `Z`-suffixed and
date-only strings are UTC. -/
def jsDateParse (off : Int) (s : String) : Option Int :=
  match parseISOChars s.data with
  | none => none
  | some (dt, utc) => some (epochMs dt + (if utc then 0 else off * 60000))

/-- Model of `new Date(e).toISOString()`. -/
def jsToISOString (e : Int) : String :=
  renderISO (fromEpochMs e)

/-- `formatDateForInput` (App.jsx lines 60-67): backend timestamp to
datetime-local value. Empty or unparsable input yields `""`; otherwise
the timezone offset is subtracted and the result is
`toISOString().slice(0, 16)`. -/
def formatDateForInput (off : Int) (timestamp : String) : String :=
  if timestamp = "" then ""
  else
    match jsDateParse off timestamp with
    | none => ""
    | some e => String.mk (List.take 16 (jsToISOString (e - off * 60000)).data)

/-- `parseDateForAPI` (App.jsx lines 70-75): datetime-local value (or
null) to ISO wire string. Falsy or unparsable input yields `none` (JS
null); otherwise `toISOString()` of the parsed instant. -/
def parseDateForAPI (off : Int) (localDate : Option String) : Option String :=
  if jsTruthyStr localDate = false then none
  else
    match jsDateParse off (localDate.getD "") with
    | none => none
    | some e => some (jsToISOString e)

theorem daysInMonth_le (y m : Nat) : daysInMonth y m ≤ 31 := by
  simp only [daysInMonth]
  split <;> [split; split] <;> omega

theorem parse2_render2_nil (n : Nat) (h : n ≤ 99) :
    parse2 (render2 n) = some (n, []) := by
  have := parse2_render2 n h []
  simpa using this

theorem parseISOChars_editChars (dt : DateTime) (h : validDT dt) (hy : dt.year ≤ 9999) :
    parseISOChars (editChars dt)
      = some (⟨dt.year, dt.month, dt.day, dt.hour, dt.minute, 0, 0⟩, false) := by
  obtain ⟨y, mo, da, hr, mi, se, ml⟩ := dt
  obtain ⟨⟨hm1, hm2, hd1, hd2⟩, hh, hmin, hse, hml⟩ := h
  dsimp only at hm1 hm2 hd1 hd2 hh hmin hse hml hy
  have hdle := daysInMonth_le y mo
  have hcond1 : 1 ≤ mo ∧ mo ≤ 12 ∧ 1 ≤ da ∧ da ≤ daysInMonth y mo := ⟨hm1, hm2, hd1, hd2⟩
  have hcond2 : hr ≤ 23 ∧ mi ≤ 59 := ⟨by omega, by omega⟩
  simp only [editChars, List.cons_append, List.append_assoc]
  simp only [parseISOChars, parse4_render4 y hy, Option.bind, expectCh_cons,
    parse2_render2 mo (by omega : mo ≤ 99), parse2_render2 da (by omega : da ≤ 99),
    parse2_render2 hr (by omega : hr ≤ 99), parse2_render2_nil mi (by omega : mi ≤ 99),
    hcond1, hcond2, if_true, and_true, true_and, and_self, parseTimeTail, Option.map]

theorem parseISOChars_isoChars (dt : DateTime) (h : validDT dt) (hy : dt.year ≤ 9999) :
    parseISOChars (isoChars dt) = some (dt, true) := by
  obtain ⟨y, mo, da, hr, mi, se, ml⟩ := dt
  obtain ⟨⟨hm1, hm2, hd1, hd2⟩, hh, hmin, hse, hml⟩ := h
  dsimp only at hm1 hm2 hd1 hd2 hh hmin hse hml hy
  have hdle := daysInMonth_le y mo
  have hcond1 : 1 ≤ mo ∧ mo ≤ 12 ∧ 1 ≤ da ∧ da ≤ daysInMonth y mo := ⟨hm1, hm2, hd1, hd2⟩
  have hcond2 : hr ≤ 23 ∧ mi ≤ 59 := ⟨by omega, by omega⟩
  have hse' : se ≤ 59 := hse
  simp only [isoChars, editChars, isoTailChars, List.cons_append, List.append_assoc]
  simp only [parseISOChars, parse4_render4 y hy, Option.bind, expectCh_cons,
    parse2_render2 mo (by omega : mo ≤ 99), parse2_render2 da (by omega : da ≤ 99),
    parse2_render2 hr (by omega : hr ≤ 99), parse2_render2 mi (by omega : mi ≤ 99),
    hcond1, hcond2, if_true, and_true, true_and, and_self, parseTimeTail,
    parse2_render2 se (by omega : se ≤ 99), hse', parseMsTail,
    parse3_render3 ml (by omega : ml ≤ 999), Option.map]

theorem editChars_length (dt : DateTime) : (editChars dt).length = 16 := by
  simp [editChars, render4, render2]

theorem take16_isoChars (dt : DateTime) :
    List.take 16 (isoChars dt) = editChars dt := by
  rw [isoChars, ← editChars_length dt, List.take_left]

theorem renderISO_ne_empty (dt : DateTime) : renderISO dt ≠ "" := by
  intro hcontra
  have hdata : (String.mk (isoChars dt)).data = "".data := by
    rw [← hcontra]; rfl
  simp [isoChars, editChars, render4] at hdata

theorem renderEditable_ne_empty (dt : DateTime) : renderEditable dt ≠ "" := by
  intro hcontra
  have hdata : (String.mk (editChars dt)).data = "".data := by
    rw [← hcontra]; rfl
  simp [editChars, render4] at hdata

theorem jsDateParse_jsToISOString (off e : Int) (h : inPrintableRange e) :
    jsDateParse off (jsToISOString e) = some e := by
  unfold jsDateParse jsToISOString renderISO
  rw [show (String.mk (isoChars (fromEpochMs e))).data = isoChars (fromEpochMs e) from rfl]
  rw [parseISOChars_isoChars _ (fromEpochMs_validDT e) (fromEpochMs_year_le e h.2)]
  simp [epochMs_fromEpochMs e (by exact_mod_cast h.1)]

theorem parseDateForAPI_canonical (off e : Int) (h : inPrintableRange e) :
    parseDateForAPI off (some (jsToISOString e)) = some (jsToISOString e) := by
  have hne : jsToISOString e ≠ "" := renderISO_ne_empty (fromEpochMs e)
  unfold parseDateForAPI
  simp [jsTruthyStr, hne, jsDateParse_jsToISOString off e h]

/-- A valid minute-precision datetime (the content of a well-formed
datetime-local input value). -/
def validMinuteDT (dt : DateTime) : Prop :=
  validDT dt ∧ dt.second = 0 ∧ dt.ms = 0 ∧ dt.year ≤ 9999

instance (dt : DateTime) : Decidable (validMinuteDT dt) := by
  unfold validMinuteDT; infer_instance

theorem minuteDT_eta (dt : DateTime) (hs : dt.second = 0) (hm : dt.ms = 0) :
    (⟨dt.year, dt.month, dt.day, dt.hour, dt.minute, 0, 0⟩ : DateTime) = dt := by
  obtain ⟨y, mo, da, hr, mi, se, ml⟩ := dt
  dsimp only at hs hm
  rw [hs, hm]

theorem jsDateParse_renderEditable (off : Int) (dt : DateTime) (h : validMinuteDT dt) :
    jsDateParse off (renderEditable dt) = some (epochMs dt + off * 60000) := by
  obtain ⟨hv, hs, hm, hy⟩ := h
  unfold jsDateParse renderEditable
  rw [show (String.mk (editChars dt)).data = editChars dt from rfl]
  rw [parseISOChars_editChars dt hv hy, minuteDT_eta dt hs hm]
  simp

theorem parseDateForAPI_renderEditable (off : Int) (dt : DateTime) (h : validMinuteDT dt) :
    parseDateForAPI off (some (renderEditable dt))
      = some (jsToISOString (epochMs dt + off * 60000)) := by
  have hne : renderEditable dt ≠ "" := renderEditable_ne_empty dt
  unfold parseDateForAPI
  simp [jsTruthyStr, hne, jsDateParse_renderEditable off dt h]

theorem formatDateForInput_wire (off : Int) (dt : DateTime) (h : validMinuteDT dt)
    (hrange : inPrintableRange (epochMs dt + off * 60000)) :
    formatDateForInput off (jsToISOString (epochMs dt + off * 60000))
      = renderEditable dt := by
  have hne : jsToISOString (epochMs dt + off * 60000) ≠ "" :=
    renderISO_ne_empty (fromEpochMs (epochMs dt + off * 60000))
  unfold formatDateForInput
  rw [if_neg hne, jsDateParse_jsToISOString off _ hrange]
  have he : epochMs dt + off * 60000 - off * 60000 = epochMs dt := by ring
  show String.mk (List.take 16
    (jsToISOString (epochMs dt + off * 60000 - off * 60000)).data) = renderEditable dt
  rw [he]
  unfold jsToISOString
  rw [fromEpochMs_epochMs dt h.1]
  unfold renderISO renderEditable
  rw [show (String.mk (isoChars dt)).data = isoChars dt from rfl, take16_isoChars]

/-! ### Controller state and operations (the App component) -/

/-- Parsed JSON value of the list response, as far as the controller
inspects it: either an array of task records or something else
(on which `Array.isArray` is false). -/
inductive FetchVal where
  | arr (ts : List Task)
  | nonArray
  deriving DecidableEq, Repr

/-- The task list a fetched value yields: the array contents, or `[]`
for a non-array (including the `null` of an empty 2xx body). -/
def fetchItems (v : Option FetchVal) : List Task :=
  match v with
  | some (.arr ts) => ts
  | _ => []

/-- Per-item date normalization in `loadTasks` (App.jsx lines 91-94):
`{...item, deadline: item.deadline ? new Date(item.deadline).toISOString() : null}`.
`none` models the RangeError that `toISOString` throws on an Invalid
Date (there is no `isNaN` guard here, unlike `formatDateForInput`). -/
def normalizeTask (off : Int) (item : Task) : Option Task :=
  if jsTruthyStr item.deadline then
    match jsDateParse off (item.deadline.getD "") with
    | none => none
    | some e => some { item with deadline := some (jsToISOString e) }
  else some { item with deadline := none }

/-- `items.map(...)` over the fetched list; a throw anywhere aborts the
whole map (and is caught by `loadTasks`). -/
def normalizeList (off : Int) : List Task → Option (List Task)
  | [] => some []
  | t :: ts =>
    match normalizeTask off t with
    | none => none
    | some t2 =>
      match normalizeList off ts with
      | none => none
      | some ts2 => some (t2 :: ts2)

/-- Message of the RangeError thrown by `toISOString` on an Invalid
Date. -/
def rangeErrorMsg : String := "Invalid time value"

/-- Controller state of the App component. -/
structure AppState where
  tasks : List Task
  loading : Bool
  editing : Option Nat
  form : TaskForm
  filter : String
  error : Option String
  deriving DecidableEq, Repr

/-- Initial state (App.jsx lines 78-83). -/
def initialState : AppState :=
  { tasks := [], loading := false, editing := none, form := emptyTask,
    filter := "Pending", error := none }

/-- First half of `loadTasks`, before the awaited fetch resolves:
`setLoading(true); setError(null)`. -/
def loadTasksStart (st : AppState) : AppState :=
  { st with loading := true, error := none }

/-- Second half of `loadTasks`: the try/catch/finally around the resolved
`apiCall` outcome. On success the fetched items are normalized and
replace `tasks` (a non-array yields `[]`); a throw during normalization
is caught exactly like an API failure; the catch stores
`err.body ?? err.message`; the finally clears `loading`. -/
def loadTasksFinish (off : Int) (st : AppState)
    (result : Except ApiError (Option FetchVal)) : AppState :=
  match result with
  | .error e => { st with error := some e.display, loading := false }
  | .ok items =>
    match normalizeList off (fetchItems items) with
    | none => { st with error := some rangeErrorMsg, loading := false }
    | some ts => { st with tasks := ts, loading := false }

/-- `loadTasks` (App.jsx lines 85-102) as a state transformer over the
outcome of its `apiCall`. -/
def loadTasks (off : Int) (st : AppState)
    (result : Except ApiError (Option FetchVal)) : AppState :=
  loadTasksFinish off (loadTasksStart st) result

/-- The POST payload built by `createTask` (App.jsx lines 112-116). -/
def createPayload (off : Int) (form : TaskForm) : CreatePayload :=
  { title := form.title,
    description := strOr form.description "",
    deadline := jsOrNull (parseDateForAPI off (some form.deadline)) }

/-- `createTask` (App.jsx lines 108-123) as a state transformer over the
outcome of its `apiCall` and of the `loadTasks` it triggers on success. -/
def createTask {α : Type} (off : Int) (st : AppState)
    (apiRes : Except ApiError α)
    (listRes : Except ApiError (Option FetchVal)) : AppState :=
  match apiRes with
  | .error e => { st with error := some e.display }
  | .ok _ => loadTasks off { st with error := none, form := emptyTask } listRes

/-- The PUT body built by `updateTask` (App.jsx lines 128-134). -/
def updateBody (off : Int) (taskId : Nat) (patch : Patch) : UpdateBody :=
  { taskId := taskId,
    title := patch.title,
    description := jsOrStr patch.description "",
    deadline := jsOrNull (parseDateForAPI off patch.deadline),
    status := jsOrStr patch.status "Pending" }

/-- `updateTask` (App.jsx lines 125-142) as a state transformer. -/
def updateTask {α : Type} (off : Int) (st : AppState)
    (apiRes : Except ApiError α)
    (listRes : Except ApiError (Option FetchVal)) : AppState :=
  match apiRes with
  | .error e => { st with error := some e.display }
  | .ok _ =>
    loadTasks off { st with error := none, editing := none, form := emptyTask } listRes

/-- `removeTask` (App.jsx lines 144-152) as a state transformer. -/
def removeTask {α : Type} (off : Int) (st : AppState)
    (apiRes : Except ApiError α)
    (listRes : Except ApiError (Option FetchVal)) : AppState :=
  match apiRes with
  | .error e => { st with error := some e.display }
  | .ok _ => loadTasks off { st with error := none } listRes

/-- The patch the toggle button's onClick passes to `updateTask`
(App.jsx lines 273-283): the spread task with `status` flipped to
`"Pending"` exactly when the current status is `"Completed"`, else to
`"Completed"`. -/
def togglePatch (t : Task) : Patch :=
  { title := t.title, description := t.description, deadline := t.deadline,
    status := some (if t.status = some "Completed" then "Pending" else "Completed") }

/-- The full PUT body issued by a toggle click. -/
def toggleBody (off : Int) (t : Task) : UpdateBody :=
  updateBody off t.taskId (togglePatch t)

/-- The edit button's onClick (App.jsx lines 286-296): select the task
and populate the form, converting the wire deadline to editable form. -/
def beginEdit (off : Int) (st : AppState) (t : Task) : AppState :=
  { st with
      editing := some t.taskId,
      form := { taskId := some t.taskId,
                title := strOr t.title "",
                description := jsOrStr t.description "",
                status := jsOrStr t.status "Pending",
                deadline := if jsTruthyStr t.deadline then
                    formatDateForInput off (t.deadline.getD "")
                  else "" } }

/-- The cancel button's onClick (App.jsx lines 224-235). -/
def cancelEdit (st : AppState) : AppState :=
  { st with editing := none, form := emptyTask }

/-- The filter select's onChange (App.jsx lines 166-175). -/
def setFilter (st : AppState) (f : String) : AppState :=
  { st with filter := f }

/-! ### Demo values used by witnesses -/

/-- A concrete completed task (the spec's scenario list
`[{taskId: 1, status: "Completed"}]`). -/
def sampleCompleted : Task :=
  { taskId := 1, title := "t", description := none,
    status := some "Completed", deadline := none }

/-- A concrete pending task. -/
def samplePending : Task :=
  { taskId := 7, title := "Buy milk", description := some "d",
    status := some "Pending", deadline := none }

/-! ### Claims -/

/-- C4: for every task collection `T` and filter `f`, the visible set is
`T` unchanged when `f = "All"`, and otherwise exactly the subset of `T`
whose status, defaulted to `"Pending"` when absent or falsy, equals `f`;
`visibleTasks` is a pure function of the in-memory collection (no
fetch). -/
theorem c4_filter_projection (f : String) (T : List Task) :
    (f = "All" → visibleTasks f T = T) ∧
    (f ≠ "All" →
      visibleTasks f T = T.filter (fun t => effStatus t == f) ∧
      ∀ t, t ∈ visibleTasks f T ↔ t ∈ T ∧ effStatus t = f) := by
  constructor
  · intro h
    simp [visibleTasks, h]
  · intro h
    refine ⟨by simp [visibleTasks, h], ?_⟩
    intro t
    simp [visibleTasks, h, List.mem_filter]

theorem c4_filter_projection_witness :
    (visibleTasks "All" [sampleCompleted] = [sampleCompleted]) ∧
    (visibleTasks "Pending" [sampleCompleted]
        = List.filter (fun t => effStatus t == "Pending") [sampleCompleted] ∧
      ∀ t, t ∈ visibleTasks "Pending" [sampleCompleted] ↔
        t ∈ [sampleCompleted] ∧ effStatus t = "Pending") :=
  ⟨(c4_filter_projection "All" [sampleCompleted]).1 rfl,
   (c4_filter_projection "Pending" [sampleCompleted]).2 (by decide)⟩

/-- C1: for every HTTP response reaching `apiCall` (with a live session):
a non-2xx status fails with the structured error carrying the status code
and, as body, the JSON-stringified parsed error body when the body is
valid JSON, else the literal `"<status> <statusText>"` string; a 2xx
status with empty body returns null; a 2xx status with a non-empty body
returns the body parsed as JSON (when the body is not valid JSON there is
no parsed value and `JSON.parse` raises instead). -/
theorem c1_apiCall_response_contract {J : Type}
    (parse : String → Option J) (stringify : J → String)
    (tok path method : String) (body : Option J) (r : HttpResponse) :
    (resOk r = false → ∀ j, parse r.bodyText = some j →
      apiCall parse stringify (some tok) path method body r
        = .error (.http r.status (stringify j))) ∧
    (resOk r = false → parse r.bodyText = none →
      apiCall parse stringify (some tok) path method body r
        = .error (.http r.status (toString r.status ++ " " ++ r.statusText))) ∧
    (resOk r = true → r.bodyText = "" →
      apiCall parse stringify (some tok) path method body r = .ok none) ∧
    (resOk r = true → r.bodyText ≠ "" → ∀ j, parse r.bodyText = some j →
      apiCall parse stringify (some tok) path method body r = .ok (some j)) := by
  refine ⟨?_, ?_, ?_, ?_⟩
  · intro hok j hj
    simp [apiCall, apiCallRequest, getIdToken, handleResponse, hok, hj]
  · intro hok hj
    simp [apiCall, apiCallRequest, getIdToken, handleResponse, hok, hj]
  · intro hok hempty
    simp [apiCall, apiCallRequest, getIdToken, handleResponse, hok, hempty]
  · intro hok hne j hj
    simp [apiCall, apiCallRequest, getIdToken, handleResponse, hok, hne, hj]

/-- Trivial JSON codec on `Unit` recognizing only the text `"\x7b\x7d"`,
used to instantiate witnesses. -/
def unitParse : String → Option Unit :=
  fun s => if s = "\x7b\x7d" then some () else none

/-- Stringifier paired with `unitParse`. -/
def unitStringify : Unit → String :=
  fun _ => "\x7b\x7d"

theorem c1_apiCall_response_contract_witness :
    (apiCall unitParse unitStringify (some "tk") "/tasks" "GET" none
        ⟨403, "Forbidden", "\x7b\x7d"⟩ = .error (.http 403 "\x7b\x7d")) ∧
    (apiCall unitParse unitStringify (some "tk") "/tasks" "GET" none
        ⟨500, "Server Error", "oops"⟩ = .error (.http 500 "500 Server Error")) ∧
    (apiCall unitParse unitStringify (some "tk") "/tasks" "GET" none
        ⟨200, "OK", ""⟩ = .ok none) ∧
    (apiCall unitParse unitStringify (some "tk") "/tasks" "GET" none
        ⟨200, "OK", "\x7b\x7d"⟩ = .ok (some ())) :=
  ⟨(c1_apiCall_response_contract unitParse unitStringify "tk" "/tasks" "GET" none
      ⟨403, "Forbidden", "\x7b\x7d"⟩).1 (by decide) () (by decide),
   (c1_apiCall_response_contract unitParse unitStringify "tk" "/tasks" "GET" none
      ⟨500, "Server Error", "oops"⟩).2.1 (by decide) (by decide),
   (c1_apiCall_response_contract unitParse unitStringify "tk" "/tasks" "GET" none
      ⟨200, "OK", ""⟩).2.2.1 (by decide) rfl,
   (c1_apiCall_response_contract unitParse unitStringify "tk" "/tasks" "GET" none
      ⟨200, "OK", "\x7b\x7d"⟩).2.2.2 (by decide) (by decide) () (by decide)⟩

/-- C3: with no active session (the session provider yields no id token),
every API operation's request stage — list, create, update, delete — and
the full `apiCall` itself fail with the AuthError carrying the
no-id-token message; the failure is the request-building stage returning
no request at all, so it happens strictly before any network call. -/
theorem c3_no_session_fails_before_network {J : Type}
    (parse : String → Option J) (stringify : J → String)
    (sc : CreatePayload → String) (su : UpdateBody → String)
    (payload : CreatePayload) (b : UpdateBody) (taskId : Nat)
    (path method : String) (body : Option J) (r : HttpResponse) :
    listTasksReq none = .error (.auth noIdTokenMsg) ∧
    createTaskReq sc none payload = .error (.auth noIdTokenMsg) ∧
    updateTaskReq su none taskId b = .error (.auth noIdTokenMsg) ∧
    deleteTaskReq none taskId = .error (.auth noIdTokenMsg) ∧
    apiCall parse stringify none path method body r = .error (.auth noIdTokenMsg) :=
  ⟨rfl, rfl, rfl, rfl, rfl⟩

/-- C5: `loadTasks` sets `loading` and clears `error` at the start; when
the fetch fails it stores the failure's `body` if present else its
`message` and leaves `tasks` unchanged; when the fetch succeeds and the
fetched list normalizes, it replaces `tasks` with the date-normalized
list; `loading` is false at the end in every outcome. -/
theorem c5_loadTasks_lifecycle (off : Int) (st : AppState)
    (result : Except ApiError (Option FetchVal)) :
    ((loadTasksStart st).loading = true ∧ (loadTasksStart st).error = none ∧
      (loadTasksStart st).tasks = st.tasks) ∧
    (∀ e, result = .error e →
      (loadTasks off st result).tasks = st.tasks ∧
      (loadTasks off st result).error = some ((e.bodyOpt).getD e.msgText) ∧
      (loadTasks off st result).loading = false) ∧
    (∀ v ts, result = .ok v → normalizeList off (fetchItems v) = some ts →
      (loadTasks off st result).tasks = ts ∧
      (loadTasks off st result).error = none ∧
      (loadTasks off st result).loading = false) := by
  refine ⟨⟨rfl, rfl, rfl⟩, ?_, ?_⟩
  · intro e he
    subst he
    refine ⟨rfl, ?_, rfl⟩
    simp [loadTasks, loadTasksFinish, loadTasksStart, ApiError.display]
  · intro v ts hv hn
    subst hv
    simp [loadTasks, loadTasksFinish, loadTasksStart, hn]

theorem c5_loadTasks_lifecycle_witness :
    ((loadTasksStart initialState).loading = true ∧
      (loadTasksStart initialState).error = none ∧
      (loadTasksStart initialState).tasks = initialState.tasks) ∧
    ((loadTasks 0 initialState
        (.error (.http 403 "\x7b\"message\":\"forbidden\"\x7d"))).tasks
          = initialState.tasks ∧
      (loadTasks 0 initialState
        (.error (.http 403 "\x7b\"message\":\"forbidden\"\x7d"))).error
          = some "\x7b\"message\":\"forbidden\"\x7d" ∧
      (loadTasks 0 initialState
        (.error (.http 403 "\x7b\"message\":\"forbidden\"\x7d"))).loading = false) ∧
    ((loadTasks 0 initialState (.ok (some (.arr [samplePending])))).tasks
        = [samplePending] ∧
      (loadTasks 0 initialState (.ok (some (.arr [samplePending])))).error = none ∧
      (loadTasks 0 initialState (.ok (some (.arr [samplePending])))).loading = false) :=
  ⟨(c5_loadTasks_lifecycle 0 initialState
      (.error (.http 403 "\x7b\"message\":\"forbidden\"\x7d"))).1,
   (c5_loadTasks_lifecycle 0 initialState
      (.error (.http 403 "\x7b\"message\":\"forbidden\"\x7d"))).2.1
      (.http 403 "\x7b\"message\":\"forbidden\"\x7d") rfl,
   (c5_loadTasks_lifecycle 0 initialState
      (.ok (some (.arr [samplePending])))).2.2
      (some (.arr [samplePending])) [samplePending] rfl (by decide)⟩

theorem loadTasks_tasks_cases (off : Int) (st : AppState)
    (r : Except ApiError (Option FetchVal)) :
    (loadTasks off st r).tasks = st.tasks ∨
      ∃ v ts, r = .ok v ∧ normalizeList off (fetchItems v) = some ts ∧
        (loadTasks off st r).tasks = ts := by
  cases r with
  | error e => exact Or.inl rfl
  | ok v =>
    cases hn : normalizeList off (fetchItems v) with
    | none =>
      left
      simp [loadTasks, loadTasksFinish, loadTasksStart, hn]
    | some ts =>
      right
      exact ⟨v, ts, rfl, hn, by simp [loadTasks, loadTasksFinish, loadTasksStart, hn]⟩

/-- C7: across all controller operations, the `tasks` collection is only
ever replaced by the (normalized) result of a successful list fetch; no
operation inserts, removes or edits a task locally. Each mutation
(create, update — which the toggle button also goes through — and
delete) either leaves `tasks` untouched or hands over to `loadTasks`,
and `loadTasks` either leaves `tasks` untouched or installs exactly the
normalized fetched list; begin-edit, cancel-edit and filter changes
never touch `tasks`. -/
theorem c7_tasks_only_from_fetch {α β γ : Type} (off : Int) (st : AppState)
    (aRes : Except ApiError α) (uRes : Except ApiError β) (dRes : Except ApiError γ)
    (lr1 lr2 lr3 lr4 : Except ApiError (Option FetchVal)) (t : Task) (f : String) :
    ((loadTasks off st lr4).tasks = st.tasks ∨
      ∃ v ts, lr4 = .ok v ∧ normalizeList off (fetchItems v) = some ts ∧
        (loadTasks off st lr4).tasks = ts) ∧
    ((createTask off st aRes lr1).tasks = st.tasks ∨
      ∃ v ts, lr1 = .ok v ∧ normalizeList off (fetchItems v) = some ts ∧
        (createTask off st aRes lr1).tasks = ts) ∧
    ((updateTask off st uRes lr2).tasks = st.tasks ∨
      ∃ v ts, lr2 = .ok v ∧ normalizeList off (fetchItems v) = some ts ∧
        (updateTask off st uRes lr2).tasks = ts) ∧
    ((removeTask off st dRes lr3).tasks = st.tasks ∨
      ∃ v ts, lr3 = .ok v ∧ normalizeList off (fetchItems v) = some ts ∧
        (removeTask off st dRes lr3).tasks = ts) ∧
    (beginEdit off st t).tasks = st.tasks ∧
    (cancelEdit st).tasks = st.tasks ∧
    (setFilter st f).tasks = st.tasks := by
  refine ⟨loadTasks_tasks_cases off st lr4, ?_, ?_, ?_, rfl, rfl, rfl⟩
  · cases aRes with
    | error e => exact Or.inl rfl
    | ok a =>
      have h := loadTasks_tasks_cases off
        { st with error := none, form := emptyTask } lr1
      simpa [createTask] using h
  · cases uRes with
    | error e => exact Or.inl rfl
    | ok a =>
      have h := loadTasks_tasks_cases off
        { st with error := none, editing := none, form := emptyTask } lr2
      simpa [updateTask] using h
  · cases dRes with
    | error e => exact Or.inl rfl
    | ok a =>
      have h := loadTasks_tasks_cases off { st with error := none } lr3
      simpa [removeTask] using h

/-- C9: the date converters are total and map invalid input to fixed
sentinels: `parseDateForAPI` yields null on the empty string, on null,
and on any string the `Date` built-in cannot parse; `formatDateForInput`
yields the empty string on the empty string and on any unparsable
timestamp string. Neither ever throws (both are total functions whose
only outputs on bad input are these sentinels). -/
theorem c9_converter_sentinels (off : Int) (s : String)
    (hbad : jsDateParse off s = none) :
    parseDateForAPI off (some "") = none ∧
    parseDateForAPI off none = none ∧
    formatDateForInput off "" = "" ∧
    parseDateForAPI off (some s) = none ∧
    formatDateForInput off s = "" := by
  refine ⟨rfl, rfl, rfl, ?_, ?_⟩
  · unfold parseDateForAPI
    by_cases hs : s = ""
    · simp [jsTruthyStr, hs]
    · simp [jsTruthyStr, hs, hbad]
  · unfold formatDateForInput
    by_cases hs : s = ""
    · simp [hs]
    · simp [hs, hbad]

theorem c9_converter_sentinels_witness :
    parseDateForAPI 0 (some "") = none ∧
    parseDateForAPI 0 none = none ∧
    formatDateForInput 0 "" = "" ∧
    parseDateForAPI 0 (some "not-a-date") = none ∧
    formatDateForInput 0 "not-a-date" = "" :=
  c9_converter_sentinels 0 "not-a-date" (by decide)

/-- C2: for every valid local-naive minute-precision datetime value
(rendered as `YYYY-MM-DDTHH:mm`), converting it to wire format with
`parseDateForAPI` and back with `formatDateForInput` under the same host
offset reproduces the value exactly, provided the instant lies in the
range `toISOString` prints with a four-digit year. -/
theorem c2_date_roundtrip (off : Int) (dt : DateTime) (h : validMinuteDT dt)
    (hrange : inPrintableRange (epochMs dt + off * 60000)) :
    ∃ w, parseDateForAPI off (some (renderEditable dt)) = some w ∧
      formatDateForInput off w = renderEditable dt :=
  ⟨jsToISOString (epochMs dt + off * 60000),
   parseDateForAPI_renderEditable off dt h,
   formatDateForInput_wire off dt h hrange⟩

theorem c2_date_roundtrip_witness :
    ∃ w, parseDateForAPI (-120) (some (renderEditable ⟨2, 3, 5, 10, 30, 0, 0⟩))
        = some w ∧
      formatDateForInput (-120) w = renderEditable ⟨2, 3, 5, 10, 30, 0, 0⟩ :=
  c2_date_roundtrip (-120) ⟨2, 3, 5, 10, 30, 0, 0⟩ (by decide) (by decide)

/-- C10: `parseDateForAPI` is the identity on canonical ISO-8601 UTC
strings as produced by list normalization (`toISOString` output in the
four-digit-year range); consequently the PUT body issued by a toggle
click carries exactly the deadline value stored in the tasks
collection. -/
theorem c10_parse_identity_on_wire (off e : Int) (h : inPrintableRange e) (t : Task)
    (hd : t.deadline = some (jsToISOString e)) :
    parseDateForAPI off (some (jsToISOString e)) = some (jsToISOString e) ∧
    (toggleBody off t).deadline = t.deadline := by
  have hne : jsToISOString e ≠ "" := renderISO_ne_empty (fromEpochMs e)
  refine ⟨parseDateForAPI_canonical off e h, ?_⟩
  simp only [toggleBody, updateBody, togglePatch, hd]
  rw [parseDateForAPI_canonical off e h]
  simp [jsOrNull, hne]

theorem c10_parse_identity_on_wire_witness :
    parseDateForAPI 60 (some (jsToISOString (-62167219200000)))
        = some (jsToISOString (-62167219200000)) ∧
    (toggleBody 60 { taskId := 3, title := "w", description := none,
                     status := none,
                     deadline := some (jsToISOString (-62167219200000)) }).deadline
      = some (jsToISOString (-62167219200000)) :=
  c10_parse_identity_on_wire 60 (-62167219200000) (by decide)
    { taskId := 3, title := "w", description := none, status := none,
      deadline := some (jsToISOString (-62167219200000)) } rfl

/-- C8: a toggle click issues a full-replacement PUT to
`/tasks/{taskId}` resending the task's title, description (defaulted to
`""` when absent) and stored deadline (assumed canonical, as every
deadline in the collection is), with status `"Completed"` when the
current status is not `"Completed"` and `"Pending"` when it is. -/
theorem c8_toggle_full_replacement (off : Int) (su : UpdateBody → String)
    (tok : String) (t : Task)
    (hcanon : t.deadline = none ∨
      ∃ e, inPrintableRange e ∧ t.deadline = some (jsToISOString e)) :
    (t.status ≠ some "Completed" → (toggleBody off t).status = "Completed") ∧
    (t.status = some "Completed" → (toggleBody off t).status = "Pending") ∧
    (toggleBody off t).title = t.title ∧
    (toggleBody off t).description = t.description.getD "" ∧
    (toggleBody off t).deadline = t.deadline ∧
    (toggleBody off t).taskId = t.taskId ∧
    ∃ req, updateTaskReq su (some tok) t.taskId (toggleBody off t) = .ok req ∧
      req.method = "PUT" ∧ req.url = apiUrl ++ "/tasks/" ++ toString t.taskId ∧
      req.body = some (su (toggleBody off t)) := by
  refine ⟨?_, ?_, rfl, ?_, ?_, rfl, ?_⟩
  · intro hne
    simp [toggleBody, updateBody, togglePatch, jsOrStr, hne]
  · intro heq
    simp [toggleBody, updateBody, togglePatch, jsOrStr, heq]
  · cases hdesc : t.description with
    | none => simp [toggleBody, updateBody, togglePatch, jsOrStr, hdesc]
    | some s =>
      by_cases hs : s = "" <;>
        simp [toggleBody, updateBody, togglePatch, jsOrStr, hdesc, hs]
  · rcases hcanon with hd | ⟨e, he, hd⟩
    · simp [toggleBody, updateBody, togglePatch, hd, parseDateForAPI, jsTruthyStr, jsOrNull]
    · have hne : jsToISOString e ≠ "" := renderISO_ne_empty (fromEpochMs e)
      simp only [toggleBody, updateBody, togglePatch, hd]
      rw [parseDateForAPI_canonical off e he]
      simp [jsOrNull, hne]
  · refine ⟨_, rfl, rfl, ?_, rfl⟩
    show apiUrl ++ ("/tasks/" ++ toString t.taskId) = apiUrl ++ "/tasks/" ++ toString t.taskId
    rw [String.append_assoc]

theorem c8_toggle_full_replacement_witness :
    ((samplePending.status ≠ some "Completed" →
        (toggleBody 0 samplePending).status = "Completed") ∧
      (samplePending.status = some "Completed" →
        (toggleBody 0 samplePending).status = "Pending") ∧
      (toggleBody 0 samplePending).title = samplePending.title ∧
      (toggleBody 0 samplePending).description = samplePending.description.getD "" ∧
      (toggleBody 0 samplePending).deadline = samplePending.deadline ∧
      (toggleBody 0 samplePending).taskId = samplePending.taskId ∧
      ∃ req, updateTaskReq (fun _ => "\x7b\x7d") (some "tk") samplePending.taskId
          (toggleBody 0 samplePending) = .ok req ∧
        req.method = "PUT" ∧
        req.url = apiUrl ++ "/tasks/" ++ toString samplePending.taskId ∧
        req.body = some "\x7b\x7d") :=
  c8_toggle_full_replacement 0 (fun _ => "\x7b\x7d") "tk" samplePending (Or.inl rfl)

/-- C6 counterexample: list normalization is not total. A fetched task
whose (truthy) deadline the `Date` built-in cannot parse makes the
normalization step throw — `new Date("not-a-date").toISOString()` raises
a RangeError, because `loadTasks` has no `isNaN` guard — so the map
aborts instead of re-expressing the deadline. -/
theorem c6_normalization_throws_counterexample :
    normalizeList 0 [{ taskId := 1, title := "t", description := none,
                       status := none, deadline := some "not-a-date" }] = none := by
  decide

theorem normalizeTask_shape (off : Int) (t : Task)
    (h : jsTruthyStr t.deadline = true →
      (jsDateParse off (t.deadline.getD "")).isSome = true) :
    ∃ t2, normalizeTask off t = some t2 ∧
      (t2.deadline = none ∨ ∃ e, t2.deadline = some (jsToISOString e)) := by
  unfold normalizeTask
  by_cases hb : jsTruthyStr t.deadline = true
  · have hs := h hb
    cases hp : jsDateParse off (t.deadline.getD "") with
    | none => rw [hp] at hs; simp at hs
    | some e =>
      refine ⟨{ t with deadline := some (jsToISOString e) }, ?_, Or.inr ⟨e, rfl⟩⟩
      simp [hb, hp]
  · refine ⟨{ t with deadline := none }, ?_, Or.inl rfl⟩
    simp [hb]

/-- C6 amended: for every fetched list all of whose truthy deadlines the
`Date` built-in can parse, normalization succeeds and re-expresses every
deadline as a `toISOString` string or null, preserving the list length;
on a list containing an unparsable truthy deadline it instead fails
(throws), which `loadTasks` catches as an error. -/
theorem c6_normalization_amended (off : Int) (ts : List Task)
    (h : ∀ t ∈ ts, jsTruthyStr t.deadline = true →
      (jsDateParse off (t.deadline.getD "")).isSome = true) :
    ∃ ts2, normalizeList off ts = some ts2 ∧ ts2.length = ts.length ∧
      ∀ t2 ∈ ts2, t2.deadline = none ∨ ∃ e, t2.deadline = some (jsToISOString e) := by
  induction ts with
  | nil => exact ⟨[], rfl, rfl, by simp⟩
  | cons a l ih =>
    obtain ⟨a2, ha2, hshape⟩ := normalizeTask_shape off a (h a (by simp))
    obtain ⟨l2, hl2, hlen, hall⟩ := ih (fun t ht hb => h t (by simp [ht]) hb)
    refine ⟨a2 :: l2, ?_, by simp [hlen], ?_⟩
    · simp [normalizeList, ha2, hl2]
    · intro t2 ht2
      rcases List.mem_cons.mp ht2 with h1 | h2
      · subst h1; exact hshape
      · exact hall t2 h2

/-- A concrete task with a canonical wire deadline. -/
def sampleWire : Task :=
  { taskId := 2, title := "b", description := none, status := none,
    deadline := some "2024-03-05T10:00:00.000Z" }

theorem c6_normalization_amended_witness :
    ∃ ts2, normalizeList 0 [samplePending, sampleWire] = some ts2 ∧
      ts2.length = [samplePending, sampleWire].length ∧
      ∀ t2 ∈ ts2, t2.deadline = none ∨ ∃ e, t2.deadline = some (jsToISOString e) :=
  c6_normalization_amended 0 [samplePending, sampleWire] (by decide)

end Todo
